import Mathlib

/-!
Shallow embedding of the relationship-discovery and causation-analysis core of
the article-relationship engine (src/relationship_engine.py,
src/causation_analyzer.py, src/config.py), together with theorems settling the
frozen claims about it.

Conventions used throughout:
* Python floats are modelled as rationals (`ℚ`).
* Timestamps are modelled as integer seconds since an epoch; the code parses
  ISO-8601 strings with `datetime.fromisoformat` and this embedding works with
  the resulting instant directly.  `timedelta.days` is floor division of the
  signed second difference by 86400 (`Int.fdiv`).
* Python `dict`s that are consumed through a fixed schema are modelled as
  structures; the one place where the exact key strings are semantically
  load-bearing (the `Relationship(**cached_dict)` round trip through
  `to_dict`) is modelled as an association list of string keys.
* Leading underscores of private Python methods are dropped from names.
-/

unseal Rat.inv Rat.add Rat.mul Rat.sub

namespace ArticleEngine

/-! ### Configuration (src/config.py) -/

/-- `RELATIONSHIP_CONFIDENCE_THRESHOLD = 0.6` (config.py line 93). -/
def RELATIONSHIP_CONFIDENCE_THRESHOLD : ℚ := 6/10

/-- `TEMPORAL_WINDOW_DAYS = 30` (config.py line 95). -/
def TEMPORAL_WINDOW_DAYS : Nat := 30

/-- `SIMILARITY_THRESHOLD = 0.7` (config.py line 96). -/
def SIMILARITY_THRESHOLD : ℚ := 7/10

/-- `MAX_RELATIONSHIPS_PER_ARTICLE = 20` (config.py line 104). -/
def MAX_RELATIONSHIPS_PER_ARTICLE : Nat := 20

/-- `BATCH_SIZE_FOR_GPT = 5` (config.py line 105). -/
def BATCH_SIZE_FOR_GPT : Nat := 5

/-- `ENABLE_FULL_SCAN = True` (config.py line 107). -/
def ENABLE_FULL_SCAN : Bool := true

/-- The keys of the `RELATIONSHIP_TYPES` dict (config.py lines 24-70).  The
descriptions, weights and keyword lists attached to each key play no role in
the claims; only key membership does. -/
def RELATIONSHIP_TYPES : List String :=
  ["CAUSES", "TRIGGERS_RETALIATION", "CREATES_OPPORTUNITY",
   "DISRUPTS_SUPPLY_CHAIN", "SHIFTS_COMPETITION", "AFFECTS_REGULATION",
   "IMPACTS_FINANCE", "AMPLIFIES_TREND", "REVERSES_TREND"]

/-- `IMPACT_LEVELS[level]['propagation_factor']` (config.py lines 73-90).
The dict has exactly the four keys PRIMARY/SECONDARY/TERTIARY/QUATERNARY; the
final else branch corresponds to the QUATERNARY entry (all call sites pass one
of the four keys). -/
def impact_propagation (level : String) : ℚ :=
  if level = "PRIMARY" then 1
  else if level = "SECONDARY" then 7/10
  else if level = "TERTIARY" then 2/5
  else 1/5

/-- One causal-pattern template from `CAUSATION_PATTERNS` (config.py lines
130-156): a name and an ordered keyword sequence (`typical_duration_days` is
unused by the matcher). -/
structure CPattern where
  name : String
  sequence : List String
deriving DecidableEq, Repr

/-- `CAUSATION_PATTERNS` (config.py lines 130-156). -/
def CAUSATION_PATTERNS : List CPattern :=
  [⟨"Trade War Cascade", ["tariff", "retaliation", "opportunity", "realignment"]⟩,
   ⟨"Regulatory Ripple", ["regulation", "compliance", "consolidation", "innovation"]⟩,
   ⟨"Tech Disruption", ["breakthrough", "threat", "pivot", "acquisition"]⟩,
   ⟨"Financial Contagion", ["crisis", "spread", "intervention", "recovery"]⟩,
   ⟨"Supply Shock", ["disruption", "shortage", "substitution", "normalization"]⟩]

/-! ### Articles and candidate selection (relationship_engine.py lines 161-204) -/

/-- An article as held in `self.articles` after `__init__` has attached an
embedding: the fields consumed by the discovery pipeline.  `timestamp` is the
parsed instant in seconds. -/
structure Article where
  id : Int
  title : String
  content : String
  timestamp : Int
  category : String
  entities : List String
  impact_score : ℚ
  embedding : List ℚ
deriving DecidableEq, Repr

/-- `np.dot` of two embedding vectors (relationship_engine.py line 184). -/
def dot_product (x y : List ℚ) : ℚ :=
  ((x.zip y).map (fun p => p.1 * p.2)).sum

/-- `len(source_entities & article_entities) / max(len(source_entities), 1)`
(relationship_engine.py lines 178-180); both operands are Python sets. -/
def entity_overlap_ratio (src a : Article) : ℚ :=
  ((src.entities.toFinset ∩ a.entities.toFinset).card : ℚ) /
    (max src.entities.toFinset.card 1 : ℚ)

/-- The temporal filter guard of `_find_candidate_articles`
(relationship_engine.py lines 170-175): the candidate is kept when
`abs((article_timestamp - source_timestamp).days) <= TEMPORAL_WINDOW_DAYS`,
where `.days` floors the signed difference. -/
def temporal_ok (src a : Article) : Bool :=
  ((a.timestamp - src.timestamp).fdiv 86400).natAbs ≤ TEMPORAL_WINDOW_DAYS

/-- Stable insertion step: `a` is placed before the first element `b` with
`le a b`. -/
def stable_insert {α : Type} (le : α → α → Bool) : α → List α → List α
  | a, [] => [a]
  | a, b :: bs => if le a b then a :: b :: bs else b :: stable_insert le a bs

/-- CPython's `list.sort` is a stable sort, and all stable sorts of a list
under a total preorder produce the same output list; this structural stable
insertion sort is the executable model of it.  With
`le x y := key y ≤ key x` it yields descending key order with ties in
original order — exactly `sort(key=.., reverse=True)`. -/
def stable_sort {α : Type} (le : α → α → Bool) : List α → List α
  | [] => []
  | a :: as => stable_insert le a (stable_sort le as)

/-- A candidate entry `{**article, 'entity_overlap': ..,
'embedding_similarity': .., 'temporal_distance': ..}`
(relationship_engine.py lines 191-196). -/
structure Candidate where
  article : Article
  entity_overlap : ℚ
  embedding_similarity : ℚ
  temporal_distance : Nat
deriving DecidableEq, Repr

/-- `_find_candidate_articles` (relationship_engine.py lines 161-204).  Every
article other than the source is run through the temporal filter, the
entity-overlap / similarity / full-scan inclusion rule, and the surviving
candidates are sorted descending by `entity_overlap + embedding_similarity`
(stable sort, as in CPython). -/
def find_candidate_articles (articles : List Article) (src : Article) :
    List Candidate :=
  let cands := articles.filterMap (fun a =>
    if a.id = src.id then none
    else
      let timeDiff := ((a.timestamp - src.timestamp).fdiv 86400).natAbs
      if TEMPORAL_WINDOW_DAYS < timeDiff then none
      else
        let overlap := entity_overlap_ratio src a
        let sim := dot_product src.embedding a.embedding
        if 0 < overlap ∨ SIMILARITY_THRESHOLD < sim ∨ ENABLE_FULL_SCAN = true then
          some ⟨a, overlap, sim, timeDiff⟩
        else none)
  stable_sort (fun x y =>
    y.entity_overlap + y.embedding_similarity ≤
      x.entity_overlap + x.embedding_similarity) cands

/-! ### Relationships and the cache dictionary round trip
(relationship_engine.py lines 29-49 and 123-127) -/

/-- A Python value stored in a serialized relationship dict. -/
inductive PyVal where
  | vint : Int → PyVal
  | vstr : String → PyVal
  | vnum : ℚ → PyVal
deriving DecidableEq, Repr

/-- The `Relationship` dataclass (relationship_engine.py lines 29-38).
`discovered_at` is the wall-clock creation time; it is carried as an opaque
string and instantiated to `""` wherever the code would call
`datetime.now().isoformat()`, since no claim depends on its value. -/
structure Relationship where
  source_id : Int
  target_id : Int
  relationship_type : String
  confidence : ℚ
  explanation : String
  impact_level : String
  discovered_at : String
deriving DecidableEq, Repr

/-- `Relationship.to_dict` (relationship_engine.py lines 40-49): note the
relationship type is serialized under the key `"type"`. -/
def to_dict (r : Relationship) : List (String × PyVal) :=
  [("source_id", .vint r.source_id),
   ("target_id", .vint r.target_id),
   ("type", .vstr r.relationship_type),
   ("confidence", .vnum r.confidence),
   ("explanation", .vstr r.explanation),
   ("impact_level", .vstr r.impact_level),
   ("discovered_at", .vstr r.discovered_at)]

/-- The keyword parameters accepted by the generated `Relationship.__init__`. -/
def relationship_params : List String :=
  ["source_id", "target_id", "relationship_type", "confidence",
   "explanation", "impact_level", "discovered_at"]

/-- `Relationship(**kwargs)` (used on the cache-hit path,
relationship_engine.py line 127).  Python raises `TypeError` when a keyword is
not a parameter name or a required parameter is missing; this is modelled as
`none`.  Values are matched at their schema types: every dict that reaches
this call was produced by `to_dict`, whose values are typed as above. -/
def relationship_of_kwargs (kwargs : List (String × PyVal)) :
    Option Relationship :=
  if kwargs.all (fun kv => relationship_params.contains kv.1) then
    match kwargs.lookup "source_id", kwargs.lookup "target_id",
        kwargs.lookup "relationship_type", kwargs.lookup "confidence",
        kwargs.lookup "explanation" with
    | some (.vint s), some (.vint t), some (.vstr ty), some (.vnum c),
        some (.vstr e) =>
      let il := match kwargs.lookup "impact_level" with
        | some (.vstr v) => some v
        | _ => none
      let da := match kwargs.lookup "discovered_at" with
        | some (.vstr v) => some v
        | _ => none
      some ⟨s, t, ty, c, e, il.getD "PRIMARY", da.getD ""⟩
    | _, _, _, _, _ => none
  else none

/-! ### Batch classification (relationship_engine.py lines 206-241) -/

/-- One element of the classifier's `result['relationships']` list.  A field
is `none` when the key is absent from the JSON object (accessing it raises
`KeyError`). -/
structure RelData where
  target_id : Option Int
  type : Option String
  confidence : Option ℚ
  explanation : Option String
  impact_level : Option String
deriving DecidableEq, Repr

/-- The observable behaviour of one classifier call: `failure` covers an API
exception, a timeout, or an unparseable body (`json.loads` raising), in which
case the `except` block is entered before any edge is appended; `success rels`
is a parsed JSON object with `result.get('relationships', []) = rels`. -/
inductive ClassifierResp where
  | failure : ClassifierResp
  | success : List RelData → ClassifierResp
deriving DecidableEq, Repr

/-- The parse loop of `_analyze_relationships_batch` (relationship_engine.py
lines 226-236).  Each item's `confidence` is read first; when it meets the
threshold a `Relationship` is built from `target_id`, `type`, `explanation`
and `impact_level` (defaulted to `"PRIMARY"`).  A missing key raises
`KeyError`, which the surrounding `except` swallows, so parsing stops and the
relationships accumulated so far are returned. -/
def parse_relationships (srcId : Int) : List RelData → List Relationship
  | [] => []
  | d :: rest =>
    match d.confidence with
    | none => []
    | some c =>
      if RELATIONSHIP_CONFIDENCE_THRESHOLD ≤ c then
        match d.target_id, d.type, d.explanation with
        | some tgt, some ty, some ex =>
          ⟨srcId, tgt, ty, c, ex, d.impact_level.getD "PRIMARY", ""⟩ ::
            parse_relationships srcId rest
        | _, _, _ => []
      else
        parse_relationships srcId rest

/-- `_analyze_relationships_batch` (relationship_engine.py lines 206-241),
with the classifier call abstracted to its observable response. -/
def analyze_relationships_batch (src : Article) (resp : ClassifierResp) :
    List Relationship :=
  match resp with
  | .failure => []
  | .success items => parse_relationships src.id items

/-! ### discover_relationships (relationship_engine.py lines 104-159) -/

/-- The relationship cache: diskcache entries that are currently within their
TTL, keyed by `(article_id, max_rels)` — the code's key string
`f"relationships_{article_id}_{max_rels}"` is in bijection with this pair.
Values are the serialized relationship dicts stored by `cache.set`. -/
abbrev Cache := List ((Int × Nat) × List (List (String × PyVal)))

/-- The exceptions `discover_relationships` can raise. -/
inductive PyError where
  | valueErrorNotFound : PyError
  | typeErrorUnexpectedKeyword : PyError
deriving DecidableEq, Repr

instance {ε α : Type} [DecidableEq ε] [DecidableEq α] :
    DecidableEq (Except ε α) := fun a b =>
  match a, b with
  | .error e, .error f =>
    if h : e = f then .isTrue (by rw [h]) else .isFalse (by simp [h])
  | .error _, .ok _ => .isFalse (by simp)
  | .ok _, .error _ => .isFalse (by simp)
  | .ok x, .ok y =>
    if h : x = y then .isTrue (by rw [h]) else .isFalse (by simp [h])

/-- The cache-hit list comprehension `[Relationship(**r) for r in
self.cache[cache_key]]` (relationship_engine.py line 127): deserializes left
to right, raising at the first failing constructor call. -/
def deserialize_cached : List (List (String × PyVal)) → Option (List Relationship)
  | [] => some []
  | d :: ds =>
    match relationship_of_kwargs d with
    | none => none
    | some r =>
      match deserialize_cached ds with
      | none => none
      | some rs => some (r :: rs)

/-- `max_relationships or MAX_RELATIONSHIPS_PER_ARTICLE`: Python `or` falls
through to the default when the argument is `None` or `0` (falsy). -/
def effective_max (maxRelationships : Option Nat) : Nat :=
  match maxRelationships with
  | some k => if k = 0 then MAX_RELATIONSHIPS_PER_ARTICLE else k
  | none => MAX_RELATIONSHIPS_PER_ARTICLE

/-- Structural worker for `chunked`; the fuel is an upper bound on the number
of chunks (the list length suffices since every chunk is nonempty). -/
def chunked_fuel (n : Nat) : Nat → List Candidate → List (List Candidate)
  | 0, _ => []
  | _, [] => []
  | fuel + 1, x :: xs =>
    ((x :: xs).take n) :: chunked_fuel n fuel (xs.drop (n - 1))

/-- The batch slicing loop `for i in range(0, len(candidates),
BATCH_SIZE_FOR_GPT): batch = candidates[i:i + BATCH_SIZE_FOR_GPT]`. -/
def chunked (n : Nat) (l : List Candidate) : List (List Candidate) :=
  chunked_fuel n l.length l

/-- The batch loop of `discover_relationships` (relationship_engine.py lines
137-144): each batch's relationships are appended and the loop breaks once
`max_rels` relationships have accumulated. -/
def process_batches (classifier : List Candidate → ClassifierResp)
    (src : Article) (maxRels : Nat) :
    List (List Candidate) → List Relationship → List Relationship
  | [], acc => acc
  | b :: bs, acc =>
    let acc' := acc ++ analyze_relationships_batch src (classifier b)
    if maxRels ≤ acc'.length then acc'
    else process_batches classifier src maxRels bs acc'

/-- `discover_relationships` (relationship_engine.py lines 104-159).  The
classifier is a function from the candidate batch to its response; the cache
is threaded explicitly.  Returns the raised exception or the result list,
together with the cache state after the call. -/
def discover_relationships (articles : List Article) (cache : Cache)
    (classifier : List Candidate → ClassifierResp) (articleId : Int)
    (maxRelationships : Option Nat) :
    Except PyError (List Relationship) × Cache :=
  match articles.find? (fun a => a.id == articleId) with
  | none => (.error .valueErrorNotFound, cache)
  | some src =>
    let maxRels := effective_max maxRelationships
    match cache.lookup (articleId, maxRels) with
    | some cached =>
      match deserialize_cached cached with
      | some rels => (.ok rels, cache)
      | none => (.error .typeErrorUnexpectedKeyword, cache)
    | none =>
      let candidates := find_candidate_articles articles src
      let rels := process_batches classifier src maxRels
        (chunked BATCH_SIZE_FOR_GPT candidates) []
      let sorted := stable_sort (fun a b => b.confidence ≤ a.confidence) rels
      let final := sorted.take maxRels
      (.ok final, ((articleId, maxRels), final.map to_dict) :: cache)

/-! ### Causation chains (causation_analyzer.py lines 26-103, 273-351) -/

/-- `CausationNode` (causation_analyzer.py lines 26-44); `timestamp` is the
denormalized ISO string carried for display. -/
structure CausationNode where
  article_id : Int
  title : String
  timestamp : String
  impact_score : ℚ
  entities : List String
  category : String
deriving DecidableEq, Repr

/-- `CausationLink` (causation_analyzer.py lines 47-65). -/
structure CausationLink where
  source_id : Int
  target_id : Int
  relationship_type : String
  confidence : ℚ
  explanation : String
  temporal_gap_days : Int
deriving DecidableEq, Repr

/-- `CausationChain` (causation_analyzer.py lines 68-87).  `chain_id` is a
wall-clock default, instantiated to `""` (no claim depends on it).  `score` is
the attribute `_rank_chains` attaches to each chain object. -/
structure CausationChain where
  chain_id : String
  nodes : List CausationNode
  links : List CausationLink
  pattern_match : Option String
  total_impact : ℚ
  confidence : ℚ
  score : ℚ
deriving DecidableEq, Repr

/-- Node attributes of the causation graph (causation_analyzer.py lines
130-139). -/
structure GraphNodeData where
  title : String
  timestamp : String
  impact_score : ℚ
  entities : List String
  category : String
deriving DecidableEq, Repr

/-- Edge attributes of the causation graph (causation_analyzer.py lines
158-165). -/
structure GraphEdgeData where
  relationship_type : String
  confidence : ℚ
  explanation : String
  temporal_gap_days : Int
deriving DecidableEq, Repr

/-- `_create_chain_from_path` (causation_analyzer.py lines 273-312).  The
graph is abstracted to its node- and edge-attribute maps; all paths handed to
this function index existing nodes and edges. -/
def create_chain_from_path (nodeData : Int → GraphNodeData)
    (edgeData : Int → Int → GraphEdgeData) (path : List Int) :
    Option CausationChain :=
  if path.length < 2 then none
  else
    let nodes := path.map (fun i =>
      let nd := nodeData i
      CausationNode.mk i nd.title nd.timestamp nd.impact_score nd.entities
        nd.category)
    let links := (path.zip path.tail).map (fun p =>
      let ed := edgeData p.1 p.2
      CausationLink.mk p.1 p.2 ed.relationship_type ed.confidence
        ed.explanation ed.temporal_gap_days)
    let totalConfidence := (links.map (fun l => l.confidence)).sum
    some { chain_id := ""
           nodes := nodes
           links := links
           pattern_match := none
           total_impact := (nodes.map (fun n => n.impact_score)).sum
           confidence :=
             if links.length ≠ 0 then totalConfidence / links.length else 0
           score := 0 }

/-- The per-chain score computation of `_rank_chains` (causation_analyzer.py
lines 330-347).  The temporal loop indexes `chain.links[i]` for
`i < len(chain.nodes) - 1`; for every chain this function receives,
`len(links) = len(nodes) - 1`, so the `take` is exact. -/
def score_chain (c : CausationChain) : CausationChain :=
  let impactScore := c.total_impact / (c.nodes.length : ℚ)
  let confidenceScore := c.confidence
  let lengthScore := min ((c.nodes.length : ℚ) / 3) 1
  let negLinks :=
    (c.links.take (c.nodes.length - 1)).countP
      (fun l => l.temporal_gap_days < 0)
  let temporalScore := (4/5 : ℚ) ^ negLinks
  { c with score :=
      impactScore * (2/5) + confidenceScore * (3/10) +
      lengthScore * (1/5) + temporalScore * (1/10) }

/-- `_rank_chains` (causation_analyzer.py lines 327-351): attach scores, then
sort descending by score (stable). -/
def rank_chains (chains : List CausationChain) : List CausationChain :=
  stable_sort (fun a b => b.score ≤ a.score) (chains.map score_chain)

/-! ### Pattern matching (causation_analyzer.py lines 353-383) -/

/-- Python `needle in haystack` prefix test on character lists. -/
def starts_with_chars : List Char → List Char → Bool
  | [], _ => true
  | _ :: _, [] => false
  | n :: ns, h :: hs => n == h && starts_with_chars ns hs

/-- Python substring containment on character lists. -/
def has_sub_chars : List Char → List Char → Bool
  | ns, [] => ns.isEmpty
  | ns, h :: hs => starts_with_chars ns (h :: hs) || has_sub_chars ns hs

/-- Python `needle in haystack` on strings. -/
def py_substring (needle hay : String) : Bool :=
  has_sub_chars needle.data hay.data

/-- Python `str.lower()`; agrees with `Char.toLower` character-wise on the
ASCII titles and keywords involved. -/
def py_lower (s : String) : String := ⟨s.data.map Char.toLower⟩

/-- The concepts one node title contributes to `chain_concepts`
(causation_analyzer.py lines 356-363): for every pattern, in order, every
keyword of its sequence contained in the lowercased title. -/
def concepts_of_title (titleLower : String) : List String :=
  (CAUSATION_PATTERNS.map (fun p =>
    p.sequence.filter (fun c => py_substring c titleLower))).flatten

/-- `chain_concepts` accumulated over the chain's nodes. -/
def chain_concepts (chain : CausationChain) : List String :=
  (chain.nodes.map (fun n =>
    concepts_of_title (py_lower n.title))).flatten

/-- The positional match count of `_match_causation_pattern`
(causation_analyzer.py lines 371-376): position `i` of the pattern sequence
matches when `i < len(chain_concepts)` and the pattern keyword is a substring
of `chain_concepts[i]`. -/
def pattern_matches (seq concepts : List String) : Nat :=
  (seq.zip concepts).countP (fun p => py_substring p.1 p.2)

/-- `matches / len(pattern_seq)` for one pattern. -/
def pattern_score (p : CPattern) (concepts : List String) : ℚ :=
  (pattern_matches p.sequence concepts : ℚ) / (p.sequence.length : ℚ)

/-- The best-match fold of `_match_causation_pattern` (causation_analyzer.py
lines 366-381): a pattern replaces the current best only when its score
strictly exceeds both the best score so far and 0.5. -/
def match_fold (concepts : List String) :
    List CPattern → Option String × ℚ → Option String × ℚ
  | [], st => st
  | p :: ps, (bm, bs) =>
    let s := pattern_score p concepts
    if bs < s ∧ (1/2 : ℚ) < s then match_fold concepts ps (some p.name, s)
    else match_fold concepts ps (bm, bs)

/-- `_match_causation_pattern` (causation_analyzer.py lines 353-383). -/
def match_causation_pattern (chain : CausationChain) : Option String :=
  (match_fold (chain_concepts chain) CAUSATION_PATTERNS (none, 0)).1

/-! ### Ripple effects (causation_analyzer.py lines 436-497) -/

/-- One entry appended to a tier list of the ripple report.  The code's entry
also denormalizes the target article and the edge attributes; the claims
concern the recorded node, its hop distance and the attached propagation
factor. -/
structure RippleEffect where
  node : Int
  hop : Nat
  factor : ℚ
deriving DecidableEq, Repr

/-- The hop → impact-level mapping of `track_ripple_effects`
(causation_analyzer.py lines 467-475). -/
def tier_of_hop (hop : Nat) : String :=
  if hop = 1 then "PRIMARY"
  else if hop = 2 then "SECONDARY"
  else if hop = 3 then "TERTIARY"
  else "QUATERNARY"

/-- The traversal state: the global visited set, the `next_level` list being
built during the current hop, and the four tier lists of the
`ripple_effects` dict. -/
structure RippleAcc where
  visited : Finset Int
  next : List Int
  primary : List RippleEffect
  secondary : List RippleEffect
  tertiary : List RippleEffect
  quaternary : List RippleEffect
deriving DecidableEq

/-- Reading `ripple_effects[level]`. -/
def tier_list (acc : RippleAcc) (level : String) : List RippleEffect :=
  if level = "PRIMARY" then acc.primary
  else if level = "SECONDARY" then acc.secondary
  else if level = "TERTIARY" then acc.tertiary
  else acc.quaternary

/-- `ripple_effects[impact_level].append(effect)`. -/
def add_effect (acc : RippleAcc) (level : String) (e : RippleEffect) :
    RippleAcc :=
  if level = "PRIMARY" then { acc with primary := acc.primary ++ [e] }
  else if level = "SECONDARY" then
    { acc with secondary := acc.secondary ++ [e] }
  else if level = "TERTIARY" then { acc with tertiary := acc.tertiary ++ [e] }
  else { acc with quaternary := acc.quaternary ++ [e] }

/-- The body of the successor loop (causation_analyzer.py lines 463-488): an
unvisited successor is marked visited, recorded in the tier of the current
hop with that tier's propagation factor, and queued for the next level. -/
def visit_successor (hop : Nat) (acc : RippleAcc) (s : Int) : RippleAcc :=
  if s ∈ acc.visited then acc
  else
    let level := tier_of_hop hop
    add_effect
      { acc with visited := insert s acc.visited, next := acc.next ++ [s] }
      level ⟨s, hop, impact_propagation level⟩

/-- Processing one node of the current level: iterate its successors. -/
def process_ripple_node (succ : Int → List Int) (hop : Nat) (acc : RippleAcc)
    (cur : Int) : RippleAcc :=
  (succ cur).foldl (visit_successor hop) acc

/-- Processing one whole level. -/
def process_ripple_level (succ : Int → List Int) (hop : Nat)
    (level : List Int) (acc : RippleAcc) : RippleAcc :=
  level.foldl (process_ripple_node succ hop) acc

/-- The hop loop `for hop in range(1, max_hops + 1)` of
`track_ripple_effects`; `next_level` is reset at the top of each hop. -/
def ripple_loop (succ : Int → List Int) :
    Nat → Nat → List Int → RippleAcc → RippleAcc
  | 0, _, _, acc => acc
  | fuel + 1, hop, level, acc =>
    let acc' := process_ripple_level succ hop level { acc with next := [] }
    ripple_loop succ fuel (hop + 1) acc'.next acc'

/-- `track_ripple_effects` (causation_analyzer.py lines 436-497), with the
causation graph abstracted to its successor map.  Returns the traversal state
whose four tier lists are the `ripple_effects` dict entries. -/
def track_ripple_effects (succ : Int → List Int) (articleId : Int)
    (maxHops : Nat) : RippleAcc :=
  ripple_loop succ maxHops 1 [articleId]
    ⟨{articleId}, [], [], [], [], []⟩

/-- All effect entries of a ripple report, across the four tiers. -/
def all_effects (acc : RippleAcc) : List RippleEffect :=
  acc.primary ++ acc.secondary ++ acc.tertiary ++ acc.quaternary

/-- The set of nodes within `n` hops of `src` along `succ`: the mathematical
yardstick for breadth-first discovery depth. -/
def ball (succ : Int → List Int) (src : Int) : Nat → Finset Int
  | 0 => {src}
  | n + 1 =>
    ball succ src n ∪ (ball succ src n).biUnion (fun v => (succ v).toFinset)

/-- The effect entry recorded for a node first discovered at the given hop. -/
def mk_effect (hop : Nat) (n : Int) : RippleEffect :=
  ⟨n, hop, impact_propagation (tier_of_hop hop)⟩

/-- All effect entries recorded for one node, across the four tiers. -/
def effects_for (acc : RippleAcc) (v : Int) : List RippleEffect :=
  (all_effects acc).filter (fun e => e.node == v)

/-- How one traversal step (at a fixed hop) extends the state: the visited
set absorbs the scanned set `S`, the newly discovered nodes `Δ` (scanned but
previously unvisited, without duplicates) are queued, tier lists only grow,
nodes outside `Δ` keep their recorded effects, and each node of `Δ` not
recorded before is recorded exactly once, in the tier of the current hop. -/
def RippleExtends (hop : Nat) (acc acc' : RippleAcc) (Δ : List Int)
    (S : Finset Int) : Prop :=
  acc'.visited = acc.visited ∪ S ∧
  Δ.Nodup ∧
  Δ.toFinset = S \ acc.visited ∧
  acc'.next = acc.next ++ Δ ∧
  (∀ t e, e ∈ tier_list acc t → e ∈ tier_list acc' t) ∧
  (∀ v, v ∉ Δ → effects_for acc' v = effects_for acc v) ∧
  (∀ v ∈ Δ, effects_for acc v = [] →
    effects_for acc' v = [mk_effect hop v] ∧
    mk_effect hop v ∈ tier_list acc' (tier_of_hop hop))

/-- The items a classifier response contributes to the parse loop. -/
def resp_items : ClassifierResp → List RelData
  | .failure => []
  | .success items => items

/-- A cache state is well formed when every entry holds the serialized image
of a relationship list whose members meet the confidence threshold — exactly
the shape `discover_relationships` writes. -/
def cacheWF (cache : Cache) : Prop :=
  ∀ e ∈ cache, ∃ rs : List Relationship,
    e.2 = rs.map to_dict ∧
    ∀ r ∈ rs, RELATIONSHIP_CONFIDENCE_THRESHOLD ≤ r.confidence

/-! ### Concrete fixtures used by witnesses and counterexamples -/

/-- Fixture: a source article. -/
def artW1 : Article := ⟨1, "Ford stock drop", "c1", 0, "Automotive", ["Ford"], 8, []⟩

/-- Fixture: a candidate article one hour after `artW1`. -/
def artW2 : Article :=
  ⟨2, "Mexican peso decline", "c2", 3600, "Finance", ["Ford"], 7, []⟩

/-- Fixture: a two-article store. -/
def artsW : List Article := [artW1, artW2]

/-- Fixture: a classifier returning one well-formed edge to article 2. -/
def clGoodW : List Candidate → ClassifierResp := fun _ =>
  .success [⟨some 2, some "IMPACTS_FINANCE", some (92/100), some "x", some "PRIMARY"⟩]

/-- Fixture: the relationship `clGoodW` yields for source 1. -/
def relW : Relationship := ⟨1, 2, "IMPACTS_FINANCE", 23/25, "x", "PRIMARY", ""⟩

/-- Fixture: a classifier naming the source article itself as target. -/
def clSelfW : List Candidate → ClassifierResp := fun _ =>
  .success [⟨some 1, some "CAUSES", some (9/10), some "loop", some "PRIMARY"⟩]

/-- Fixture: a classifier returning an out-of-taxonomy type with an
out-of-range confidence. -/
def clGarbageW : List Candidate → ClassifierResp := fun _ =>
  .success [⟨some 2, some "NOT_A_TYPE", some (3/2), some "boom", some "PRIMARY"⟩]

/-- Fixture: a well-formed response item (confidence 0.8). -/
def goodItemW : RelData := ⟨some 2, some "CAUSES", some (8/10), some "g", none⟩

/-- Fixture: a malformed response item missing the `confidence` key. -/
def badItemW : RelData := ⟨some 2, some "CAUSES", none, some "y", none⟩

/-- Fixture: the self-loop relationship `clSelfW` yields for source 1. -/
def relSelfW : Relationship := ⟨1, 1, "CAUSES", 9/10, "loop", "PRIMARY", ""⟩

/-- Fixture: the unvalidated relationship `clGarbageW` yields for source 1. -/
def relGarbageW : Relationship := ⟨1, 2, "NOT_A_TYPE", 3/2, "boom", "PRIMARY", ""⟩

/-- Fixture: the relationship parsed from `goodItemW` for source 1. -/
def relGoodItemW : Relationship := ⟨1, 2, "CAUSES", 8/10, "g", "PRIMARY", ""⟩

/-- Fixture: a classifier that always fails (timeout / exception /
unparseable body). -/
def clFailW : List Candidate → ClassifierResp := fun _ => .failure

/-- Whether the parse loop gets past this response item without raising: the
`confidence` key must exist, and when the confidence meets the threshold the
keys read by the `Relationship` constructor must exist as well. -/
def item_parses (d : RelData) : Bool :=
  match d.confidence with
  | none => false
  | some c =>
    if RELATIONSHIP_CONFIDENCE_THRESHOLD ≤ c then
      d.target_id.isSome && d.type.isSome && d.explanation.isSome
    else true

/-- Fixture: a source article for the temporal-filter counterexample. -/
def srcTW : Article := ⟨1, "s", "", 0, "", [], 5, []⟩

/-- Fixture: an article 30 days and 1 hour after `srcTW`. -/
def lateTW : Article := ⟨2, "a", "", 2595600, "", [], 5, []⟩

/-- Fixture: a successor map with distances 1, 1, 2, 3 from node 0. -/
def succW : Int → List Int := fun v =>
  if v = 0 then [1, 2] else if v = 1 then [2, 3] else if v = 3 then [4] else []

/-- Fixture: node data for the chain-ranking witness. -/
def ndW : Int → GraphNodeData := fun i => ⟨"x", "t", 5 + i, [], "c"⟩

/-- Fixture: edge data (confidence 0.9, negative temporal gap) for the
chain-ranking witness. -/
def edW : Int → Int → GraphEdgeData := fun _ _ => ⟨"CAUSES", 9/10, "e", -1⟩

/-- Fixture: a chain whose nodes carry the given titles (other fields are
irrelevant to pattern matching). -/
def chain_of_titles (titles : List String) : CausationChain :=
  ⟨"", titles.map (fun t => ⟨0, t, "", 5, [], ""⟩), [], none, 0, 0, 0⟩

/-- Fixture: the scored chain the ranking witness inspects — the chain built
from path `[1, 2]` over `ndW`/`edW` after `score_chain`. -/
def chainRankW : CausationChain :=
  score_chain
    ⟨"", [⟨1, "x", "t", 6, [], "c"⟩, ⟨2, "x", "t", 7, [], "c"⟩],
      [⟨1, 2, "CAUSES", 9/10, "e", -1⟩], none, 13, 9/10, 0⟩

/-- Fixture: the Trade War Cascade template. -/
def patternTW : CPattern :=
  ⟨"Trade War Cascade", ["tariff", "retaliation", "opportunity", "realignment"]⟩

/-- Fixture: node titles matching 2 of the 4 Trade War Cascade keywords. -/
def chainW2 : CausationChain :=
  chain_of_titles ["New tariff announced", "Swift retaliation follows"]

/-- Fixture: node titles matching 3 of the 4 Trade War Cascade keywords. -/
def chainW3 : CausationChain :=
  chain_of_titles
    ["New tariff announced", "Swift retaliation follows",
     "Market opportunity opens"]

/-! ## Supporting lemmas -/

lemma stable_insert_perm {α : Type} (le : α → α → Bool) (a : α) (l : List α) :
    (stable_insert le a l).Perm (a :: l) := by
  induction l with
  | nil => simp [stable_insert]
  | cons b bs ih =>
    simp only [stable_insert]
    split
    · exact List.Perm.refl _
    · exact (ih.cons b).trans (List.Perm.swap a b bs)

lemma stable_sort_perm {α : Type} (le : α → α → Bool) (l : List α) :
    (stable_sort le l).Perm l := by
  induction l with
  | nil => simp [stable_sort]
  | cons a as ih =>
    exact (stable_insert_perm le a (stable_sort le as)).trans (ih.cons a)

lemma mem_stable_sort {α : Type} (le : α → α → Bool) (l : List α) (x : α) :
    x ∈ stable_sort le l ↔ x ∈ l :=
  (stable_sort_perm le l).mem_iff

lemma chunked_fuel_subset (n : Nat) :
    ∀ (fuel : Nat) (l : List Candidate), ∀ b ∈ chunked_fuel n fuel l, b ⊆ l := by
  intro fuel
  induction fuel with
  | zero => simp [chunked_fuel]
  | succ f ih =>
    intro l b hb
    cases l with
    | nil => simp [chunked_fuel] at hb
    | cons x xs =>
      simp only [chunked_fuel, List.mem_cons] at hb
      rcases hb with rfl | hb
      · exact List.take_subset _ _
      · intro c hc
        exact List.mem_cons_of_mem x (List.drop_subset _ _ (ih _ b hb hc))

lemma chunked_subset (n : Nat) (l : List Candidate) :
    ∀ b ∈ chunked n l, b ⊆ l :=
  chunked_fuel_subset n l.length l

/-- Every relationship produced by the parse loop carries the source id, has
confidence at or above the threshold, and takes its target, type, confidence
and explanation verbatim from some response item. -/
lemma parse_relationships_spec (srcId : Int) :
    ∀ (items : List RelData) (r : Relationship),
      r ∈ parse_relationships srcId items →
      r.source_id = srcId ∧ RELATIONSHIP_CONFIDENCE_THRESHOLD ≤ r.confidence ∧
        ∃ d ∈ items, d.target_id = some r.target_id ∧
          d.type = some r.relationship_type ∧
          d.confidence = some r.confidence ∧
          d.explanation = some r.explanation := by
  intro items
  induction items with
  | nil => simp [parse_relationships]
  | cons d rest ih =>
    intro r hr
    simp only [parse_relationships] at hr
    cases hc : d.confidence with
    | none => rw [hc] at hr; simp at hr
    | some c =>
      rw [hc] at hr
      dsimp only at hr
      by_cases hth : RELATIONSHIP_CONFIDENCE_THRESHOLD ≤ c
      · rw [if_pos hth] at hr
        cases ht : d.target_id with
        | none => rw [ht] at hr; simp at hr
        | some tgt =>
          cases hty : d.type with
          | none => rw [ht, hty] at hr; simp at hr
          | some ty =>
            cases hex : d.explanation with
            | none => rw [ht, hty, hex] at hr; simp at hr
            | some ex =>
              rw [ht, hty, hex] at hr
              simp only [List.mem_cons] at hr
              rcases hr with rfl | hr
              · exact ⟨rfl, hth, d, List.mem_cons_self d rest, ht, hty, hc, hex⟩
              · obtain ⟨h1, h2, d', hd', hrest⟩ := ih r hr
                exact ⟨h1, h2, d', List.mem_cons_of_mem d hd', hrest⟩
      · rw [if_neg hth] at hr
        obtain ⟨h1, h2, d', hd', hrest⟩ := ih r hr
        exact ⟨h1, h2, d', List.mem_cons_of_mem d hd', hrest⟩

lemma analyze_batch_spec (src : Article) (resp : ClassifierResp)
    (r : Relationship) (hr : r ∈ analyze_relationships_batch src resp) :
    r.source_id = src.id ∧ RELATIONSHIP_CONFIDENCE_THRESHOLD ≤ r.confidence ∧
      ∃ d ∈ resp_items resp, d.target_id = some r.target_id ∧
        d.type = some r.relationship_type ∧
        d.confidence = some r.confidence ∧
        d.explanation = some r.explanation := by
  cases resp with
  | failure => simp [analyze_relationships_batch] at hr
  | success items => exact parse_relationships_spec src.id items r hr

lemma process_batches_mem (classifier : List Candidate → ClassifierResp)
    (src : Article) (maxRels : Nat) :
    ∀ (batches : List (List Candidate)) (acc : List Relationship)
      (r : Relationship), r ∈ process_batches classifier src maxRels batches acc →
      r ∈ acc ∨ ∃ b ∈ batches, r ∈ analyze_relationships_batch src (classifier b) := by
  intro batches
  induction batches with
  | nil => simp [process_batches]
  | cons b bs ih =>
    intro acc r hr
    simp only [process_batches] at hr
    split at hr
    · rcases List.mem_append.mp hr with h | h
      · exact Or.inl h
      · exact Or.inr ⟨b, List.mem_cons_self b bs, h⟩
    · rcases ih _ r hr with h | ⟨b', hb', h⟩
      · rcases List.mem_append.mp h with h | h
        · exact Or.inl h
        · exact Or.inr ⟨b, List.mem_cons_self b bs, h⟩
      · exact Or.inr ⟨b', List.mem_cons_of_mem b hb', h⟩

/-- The serialized form of a `Relationship` does not deserialize:
`to_dict` stores the relationship type under the key `"type"`, which is not a
parameter of the generated constructor. -/
lemma relationship_of_kwargs_to_dict (r : Relationship) :
    relationship_of_kwargs (to_dict r) = none := rfl

lemma lookup_mem {α β : Type} [BEq α] {l : List (α × β)} {k : α} {v : β} :
    l.lookup k = some v → ∃ k', (k', v) ∈ l := by
  induction l with
  | nil => simp [List.lookup]
  | cons p ps ih =>
    cases p with
    | mk k' v' =>
      simp only [List.lookup]
      split
      · intro h
        refine ⟨k', ?_⟩
        rw [← Option.some.inj h]
        exact List.mem_cons_self _ _
      · intro h
        rcases ih h with ⟨k'', hk⟩
        exact ⟨k'', List.mem_cons_of_mem _ hk⟩

/-- A response item that fails to parse aborts the batch loop at once. -/
lemma parse_relationships_fail_head (srcId : Int) (d : RelData)
    (rest : List RelData) (h : item_parses d = false) :
    parse_relationships srcId (d :: rest) = [] := by
  simp only [parse_relationships]
  simp only [item_parses] at h
  cases hc : d.confidence with
  | none => rfl
  | some c =>
    rw [hc] at h
    dsimp only at h ⊢
    by_cases hth : RELATIONSHIP_CONFIDENCE_THRESHOLD ≤ c
    · rw [if_pos hth] at h ⊢
      cases ht : d.target_id <;> cases hty : d.type <;>
        cases hex : d.explanation <;> simp_all
    · rw [if_neg hth] at h
      simp at h

/-- A run of successfully parsing items contributes its edges and hands the
tail on to the rest of the loop. -/
lemma parse_relationships_append (srcId : Int) :
    ∀ (items tail : List RelData), (∀ d ∈ items, item_parses d = true) →
      parse_relationships srcId (items ++ tail) =
        parse_relationships srcId items ++ parse_relationships srcId tail := by
  intro items
  induction items with
  | nil => simp [parse_relationships]
  | cons d' items' ih =>
    intro tail hall
    have hd' := hall d' (List.mem_cons_self d' items')
    have hall' : ∀ x ∈ items', item_parses x = true :=
      fun x hx => hall x (List.mem_cons_of_mem d' hx)
    simp only [item_parses] at hd'
    simp only [List.cons_append, parse_relationships]
    cases hc : d'.confidence with
    | none => rw [hc] at hd'; simp at hd'
    | some c =>
      rw [hc] at hd'
      dsimp only at hd' ⊢
      by_cases hth : RELATIONSHIP_CONFIDENCE_THRESHOLD ≤ c
      · rw [if_pos hth] at hd'
        rw [if_pos hth, if_pos hth]
        cases ht : d'.target_id with
        | none => simp [ht] at hd'
        | some tgt =>
          cases hty : d'.type with
          | none => simp [ht, hty] at hd'
          | some ty =>
            cases hex : d'.explanation with
            | none => simp [ht, hty, hex] at hd'
            | some ex =>
              dsimp only
              rw [List.append_eq, ih tail hall', List.cons_append]
      · rw [if_neg hth, if_neg hth]
        exact ih tail hall'

/-- Membership characterization of the candidate list. -/
lemma mem_find_candidate_iff (articles : List Article) (src : Article)
    (c : Candidate) :
    c ∈ find_candidate_articles articles src ↔
      ∃ a ∈ articles, ¬a.id = src.id ∧
        ¬TEMPORAL_WINDOW_DAYS <
          ((a.timestamp - src.timestamp).fdiv 86400).natAbs ∧
        (0 < entity_overlap_ratio src a ∨
          SIMILARITY_THRESHOLD < dot_product src.embedding a.embedding ∨
          ENABLE_FULL_SCAN = true) ∧
        c = ⟨a, entity_overlap_ratio src a,
          dot_product src.embedding a.embedding,
          ((a.timestamp - src.timestamp).fdiv 86400).natAbs⟩ := by
  unfold find_candidate_articles
  rw [mem_stable_sort, List.mem_filterMap]
  constructor
  · rintro ⟨a, ha, heq⟩
    dsimp only at heq
    split_ifs at heq with h1 h2 h3
    all_goals
      first
        | exact Option.noConfusion heq
        | exact ⟨a, ha, h1, h2, h3, (Option.some.inj heq).symm⟩
  · rintro ⟨a, ha, h1, h2, h3, rfl⟩
    refine ⟨a, ha, ?_⟩
    dsimp only
    rw [if_neg h1, if_neg h2, if_pos h3]

/-- Inversion of a successful `discover_relationships` call: the source was
found, and the result came either from a cache hit that deserialized, or from
the batch pipeline on a cache miss. -/
lemma discover_ok_cases (articles : List Article) (cache : Cache)
    (classifier : List Candidate → ClassifierResp) (articleId : Int)
    (k : Option Nat) (rels : List Relationship) (cache' : Cache)
    (h : discover_relationships articles cache classifier articleId k =
      (.ok rels, cache')) :
    ∃ src, articles.find? (fun a => a.id == articleId) = some src ∧
      ((∃ cached, cache.lookup (articleId, effective_max k) = some cached ∧
          deserialize_cached cached = some rels ∧ cache' = cache) ∨
        (cache.lookup (articleId, effective_max k) = none ∧
          rels = (stable_sort (fun a b => b.confidence ≤ a.confidence)
            (process_batches classifier src (effective_max k)
              (chunked BATCH_SIZE_FOR_GPT
                (find_candidate_articles articles src)) [])).take
            (effective_max k) ∧
          cache' = ((articleId, effective_max k), rels.map to_dict) :: cache)) := by
  unfold discover_relationships at h
  cases hfind : articles.find? (fun a => a.id == articleId) with
  | none => rw [hfind] at h; simp at h
  | some src =>
    rw [hfind] at h
    dsimp only at h
    refine ⟨src, rfl, ?_⟩
    cases hlk : cache.lookup (articleId, effective_max k) with
    | some cached =>
      rw [hlk] at h
      dsimp only at h
      cases hmm : deserialize_cached cached with
      | none => rw [hmm] at h; simp at h
      | some rs =>
        rw [hmm] at h
        simp only [Prod.mk.injEq] at h
        obtain ⟨h1, h2⟩ := h
        refine Or.inl ⟨cached, rfl, ?_, h2.symm⟩
        rw [hmm, Except.ok.inj h1]
    | none =>
      rw [hlk] at h
      dsimp only at h
      simp only [Prod.mk.injEq] at h
      obtain ⟨h1, h2⟩ := h
      have hrels := (Except.ok.inj h1).symm
      exact Or.inr ⟨rfl, hrels, by rw [← h2, hrels]⟩

/-- C1 — For every article ID present in the store, every `Relationship` in
the list returned by `discover_relationships` has
`confidence >= RELATIONSHIP_CONFIDENCE_THRESHOLD` (0.6).  The cache is
assumed well formed, i.e. to contain only entries the engine itself wrote. -/
theorem confidence_floor_invariant (articles : List Article) (cache : Cache)
    (classifier : List Candidate → ClassifierResp) (articleId : Int)
    (k : Option Nat) (rels : List Relationship) (cache' : Cache)
    (hwf : cacheWF cache)
    (h : discover_relationships articles cache classifier articleId k =
      (.ok rels, cache')) :
    ∀ r ∈ rels, RELATIONSHIP_CONFIDENCE_THRESHOLD ≤ r.confidence := by
  obtain ⟨src, hfind, hcases⟩ :=
    discover_ok_cases articles cache classifier articleId k rels cache' h
  rcases hcases with ⟨cached, hlk, hmm, _⟩ | ⟨hlk, hrels, _⟩
  · obtain ⟨key, hmem⟩ := lookup_mem hlk
    obtain ⟨rs, hshape, hconf⟩ := hwf _ hmem
    dsimp only at hshape
    cases rs with
    | nil =>
      rw [hshape] at hmm
      simp only [List.map_nil, deserialize_cached, Option.some.injEq] at hmm
      rw [← hmm]
      simp
    | cons r0 rest =>
      rw [hshape] at hmm
      simp [deserialize_cached, relationship_of_kwargs_to_dict] at hmm
  · subst hrels
    intro r hr
    have hr1 := List.take_subset _ _ hr
    rw [mem_stable_sort] at hr1
    rcases process_batches_mem classifier src (effective_max k) _ _ r hr1 with
      h0 | ⟨b, _, hb⟩
    · simp at h0
    · exact (analyze_batch_spec src (classifier b) r hb).2.1

/-- Witness for C1: on the concrete two-article store with classifier
`clGoodW`, the call succeeds with one relationship of confidence 0.92 ≥ 0.6. -/
theorem confidence_floor_invariant_witness :
    (discover_relationships artsW [] clGoodW 1 none =
      ((.ok [relW] : Except PyError (List Relationship)),
        [((1, 20), [to_dict relW])])) ∧
    RELATIONSHIP_CONFIDENCE_THRESHOLD ≤ relW.confidence := by
  refine ⟨by decide, ?_⟩
  exact confidence_floor_invariant artsW [] clGoodW 1 none [relW]
    [((1, 20), [to_dict relW])] (by simp [cacheWF]) (by decide) relW
    (List.mem_singleton.mpr rfl)

/-- C10 — The candidate list produced by candidate selection never contains
the source article itself, so no classifier batch for a source includes the
source among its candidates. -/
theorem source_never_candidate (articles : List Article) (src : Article) :
    (∀ c ∈ find_candidate_articles articles src, c.article.id ≠ src.id) ∧
    (∀ b ∈ chunked BATCH_SIZE_FOR_GPT (find_candidate_articles articles src),
      ∀ c ∈ b, c.article.id ≠ src.id) := by
  have hmain : ∀ c ∈ find_candidate_articles articles src,
      c.article.id ≠ src.id := by
    intro c hc
    obtain ⟨a, _, h1, _, _, rfl⟩ := (mem_find_candidate_iff articles src c).mp hc
    exact h1
  exact ⟨hmain, fun b hb c hc => hmain c (chunked_subset _ _ b hb hc)⟩

/-- Witness for C10: on the concrete store, article 2 is a candidate for
source 1 and indeed differs from the source. -/
theorem source_never_candidate_witness :
    (find_candidate_articles artsW artW1).map (fun c => c.article.id) = [2] ∧
    (∀ c ∈ find_candidate_articles artsW artW1, c.article.id ≠ artW1.id) := by
  exact ⟨by decide, (source_never_candidate artsW artW1).1⟩

/-- C5 counterexample — the claim "a candidate survives the temporal filter
iff |timestamp(candidate) − timestamp(source)| ≤ 30 days" fails at a concrete
input: an article 30 days and 1 hour later than the source survives the
filter (and appears in the candidate list) although its absolute timestamp
difference exceeds the 30-day window. -/
theorem temporal_filter_asymmetry :
    temporal_ok srcTW lateTW = true ∧
    (find_candidate_articles [srcTW, lateTW] srcTW).map
      (fun c => c.article.id) = [2] ∧
    ¬(lateTW.timestamp - srcTW.timestamp).natAbs ≤
      TEMPORAL_WINDOW_DAYS * 86400 := by
  exact ⟨by decide, by decide, by decide⟩

/-- C5 amended — a candidate survives the temporal filter iff the signed
second difference `timestamp(candidate) − timestamp(source)` lies in the
half-open interval `[-30 days, 31 days)`: candidates earlier than the source
are admitted up to exactly 30 days back, candidates later than the source up
to (but excluding) 31 days forward, because the code compares
`abs((candidate_ts - source_ts).days)`, which floors before taking the
absolute value.  With full scan enabled, a distinct article is a candidate
iff it passes exactly this filter. -/
theorem temporal_filter_amended :
    (∀ src a : Article, temporal_ok src a = true ↔
      -(TEMPORAL_WINDOW_DAYS * 86400 : Int) ≤ a.timestamp - src.timestamp ∧
        a.timestamp - src.timestamp < ((TEMPORAL_WINDOW_DAYS : Int) + 1) * 86400) ∧
    (∀ (articles : List Article) (src a : Article),
      (∃ c ∈ find_candidate_articles articles src, c.article = a) ↔
        a ∈ articles ∧ a.id ≠ src.id ∧ temporal_ok src a = true) := by
  constructor
  · intro src a
    simp only [temporal_ok, TEMPORAL_WINDOW_DAYS, decide_eq_true_eq]
    rw [Int.fdiv_eq_ediv _ (by norm_num)]
    omega
  · intro articles src a
    constructor
    · rintro ⟨c, hc, rfl⟩
      obtain ⟨a', ha', h1, h2, _, rfl⟩ :=
        (mem_find_candidate_iff articles src c).mp hc
      refine ⟨ha', h1, ?_⟩
      simp only [temporal_ok, decide_eq_true_eq]
      omega
    · rintro ⟨ha, h1, h2⟩
      simp only [temporal_ok, decide_eq_true_eq] at h2
      refine ⟨⟨a, entity_overlap_ratio src a,
        dot_product src.embedding a.embedding,
        ((a.timestamp - src.timestamp).fdiv 86400).natAbs⟩, ?_, rfl⟩
      rw [mem_find_candidate_iff]
      exact ⟨a, ha, h1, by omega, Or.inr (Or.inr rfl), rfl⟩

/-- C2 — the code contradicts the cache-idempotence contract: the first call
on article 1 succeeds and writes the serialized result to the cache, but the
second call within the TTL window hits that entry and raises `TypeError`,
because `to_dict` stores the relationship type under the key `"type"` while
the `Relationship` constructor invoked by `Relationship(**r)` only accepts
`relationship_type`.  The classifier is a pure stub, so the two calls would
otherwise be identical. -/
theorem cache_round_trip_type_error :
    (discover_relationships artsW [] clGoodW 1 none).1 = .ok [relW] ∧
    (discover_relationships artsW
      (discover_relationships artsW [] clGoodW 1 none).2 clGoodW 1 none).1 =
      .error .typeErrorUnexpectedKeyword ∧
    relationship_of_kwargs (to_dict relW) = none := by
  exact ⟨by decide, by decide, rfl⟩

/-- C9 counterexample — the claim "no returned relationship has
`source_id == target_id` even when the classifier names the source itself as
a target" fails: with a classifier response naming article 1 as the target of
article 1, `discover_relationships` returns a self-loop unfiltered. -/
theorem self_loop_counterexample :
    (discover_relationships artsW [] clSelfW 1 none).1 = .ok [relSelfW] ∧
    relSelfW.source_id = relSelfW.target_id := by
  exact ⟨by decide, rfl⟩

/-- C9 amended — candidate selection never offers the source to the
classifier, but the engine does not validate classifier-returned target ids;
on a cache miss, if no classifier response item names the source article's id
as its target, then no returned relationship is a self-loop. -/
theorem no_self_loops_amended (articles : List Article) (cache : Cache)
    (classifier : List Candidate → ClassifierResp) (articleId : Int)
    (k : Option Nat) (rels : List Relationship) (cache' : Cache)
    (hmiss : cache.lookup (articleId, effective_max k) = none)
    (hcl : ∀ b, ∀ d ∈ resp_items (classifier b), d.target_id ≠ some articleId)
    (h : discover_relationships articles cache classifier articleId k =
      (.ok rels, cache')) :
    ∀ r ∈ rels, r.source_id ≠ r.target_id := by
  obtain ⟨src, hfind, hcases⟩ :=
    discover_ok_cases articles cache classifier articleId k rels cache' h
  rcases hcases with ⟨cached, hlk, _, _⟩ | ⟨_, hrels, _⟩
  · rw [hmiss] at hlk; exact Option.noConfusion hlk
  · subst hrels
    intro r hr
    have hsrc_id : src.id = articleId := by
      have := List.find?_some hfind
      simpa using this
    have hr1 := List.take_subset _ _ hr
    rw [mem_stable_sort] at hr1
    rcases process_batches_mem classifier src (effective_max k) _ _ r hr1 with
      h0 | ⟨b, _, hb⟩
    · simp at h0
    · obtain ⟨hsrc, _, d, hd, htgt, _, _, _⟩ :=
        analyze_batch_spec src (classifier b) r hb
      intro hcontra
      apply hcl b d hd
      rw [htgt, ← hcontra, hsrc, hsrc_id]

/-- Witness for the amended C9: the concrete classifier targets only article
2, and the returned relationship is indeed not a self-loop. -/
theorem no_self_loops_amended_witness :
    (discover_relationships artsW [] clGoodW 1 none =
      ((.ok [relW] : Except PyError (List Relationship)),
        [((1, 20), [to_dict relW])])) ∧
    relW.source_id ≠ relW.target_id := by
  refine ⟨by decide, ?_⟩
  exact no_self_loops_amended artsW [] clGoodW 1 none [relW]
    [((1, 20), [to_dict relW])] (by decide)
    (by intro b d hd
        simp only [clGoodW, resp_items, List.mem_singleton] at hd
        subst hd
        decide)
    (by decide) relW (List.mem_singleton.mpr rfl)

/-- C4 counterexample — the claim "confidence is clamped to [0,1] and edges
with relationship types outside RELATIONSHIP_TYPES are dropped" fails: a
classifier edge with type "NOT_A_TYPE" and confidence 1.5 is returned by
`discover_relationships` with both values untouched. -/
theorem no_validation_counterexample :
    (discover_relationships artsW [] clGarbageW 1 none).1 =
      .ok [relGarbageW] ∧
    relGarbageW.relationship_type ∉ RELATIONSHIP_TYPES ∧
    ¬relGarbageW.confidence ≤ 1 := by
  exact ⟨by decide, by decide, by decide⟩

/-- C4 amended — the only validation at the engine boundary is the confidence
threshold: every retained edge has confidence ≥ 0.6, and its target, type,
confidence and explanation are taken verbatim from the classifier response —
confidence is not clamped to [0,1] and unknown relationship types are
retained, not dropped. -/
theorem classifier_edges_taken_verbatim (src : Article)
    (resp : ClassifierResp) :
    ∀ r ∈ analyze_relationships_batch src resp,
      RELATIONSHIP_CONFIDENCE_THRESHOLD ≤ r.confidence ∧
      ∃ d ∈ resp_items resp, d.target_id = some r.target_id ∧
        d.type = some r.relationship_type ∧
        d.confidence = some r.confidence ∧
        d.explanation = some r.explanation := by
  intro r hr
  obtain ⟨_, h2, h3⟩ := analyze_batch_spec src resp r hr
  exact ⟨h2, h3⟩

/-- Witness for the amended C4: the garbage edge is retained verbatim. -/
theorem classifier_edges_taken_verbatim_witness :
    relGarbageW ∈ analyze_relationships_batch artW1 (clGarbageW []) ∧
    (RELATIONSHIP_CONFIDENCE_THRESHOLD ≤ relGarbageW.confidence ∧
      ∃ d ∈ resp_items (clGarbageW []),
        d.target_id = some relGarbageW.target_id ∧
        d.type = some relGarbageW.relationship_type ∧
        d.confidence = some relGarbageW.confidence ∧
        d.explanation = some relGarbageW.explanation) := by
  refine ⟨by decide, ?_⟩
  exact classifier_edges_taken_verbatim artW1 (clGarbageW []) relGarbageW
    (by decide)

/-- C3 counterexample — the claim "a failing batch contributes zero edges"
fails: a classifier response whose second item is missing the `confidence`
key raises `KeyError` mid-parse; the `except` block swallows it and the batch
contributes the one edge parsed before the failure, not zero. -/
theorem failing_batch_partial_edges :
    analyze_relationships_batch artW1 (.success [goodItemW, badItemW]) =
      [relGoodItemW] ∧
    analyze_relationships_batch artW1 (.success [goodItemW, badItemW]) ≠
      ([] : List Relationship) := by
  exact ⟨by decide, by decide⟩

/-- C3 amended — `discover_relationships` raises `ValueError` exactly when
the article id is absent; on a cache miss for a present id it returns a list
for every classifier behaviour (classifier failures never propagate); a batch
whose response fails mid-parse contributes exactly the edges parsed before
the failure point (zero when the failure precedes every edge); and a batch
contributing no edges lets processing continue with the next batch. -/
theorem discover_error_handling_amended :
    (∀ (articles : List Article) (cache : Cache)
      (classifier : List Candidate → ClassifierResp) (articleId : Int)
      (k : Option Nat),
      articles.find? (fun a => a.id == articleId) = none →
      discover_relationships articles cache classifier articleId k =
        (.error .valueErrorNotFound, cache)) ∧
    (∀ (articles : List Article) (cache : Cache)
      (classifier : List Candidate → ClassifierResp) (articleId : Int)
      (k : Option Nat) (src : Article),
      articles.find? (fun a => a.id == articleId) = some src →
      cache.lookup (articleId, effective_max k) = none →
      ∃ rels cache',
        discover_relationships articles cache classifier articleId k =
          (.ok rels, cache')) ∧
    (∀ (srcId : Int) (items : List RelData) (d : RelData)
      (rest : List RelData),
      (∀ d' ∈ items, item_parses d' = true) → item_parses d = false →
      parse_relationships srcId (items ++ d :: rest) =
        parse_relationships srcId items) ∧
    (∀ (classifier : List Candidate → ClassifierResp) (src : Article)
      (m : Nat) (b : List Candidate) (bs : List (List Candidate))
      (acc : List Relationship),
      analyze_relationships_batch src (classifier b) = [] → acc.length < m →
      process_batches classifier src m (b :: bs) acc =
        process_batches classifier src m bs acc) := by
  refine ⟨?_, ?_, ?_, ?_⟩
  · intro articles cache classifier articleId k hfind
    unfold discover_relationships
    rw [hfind]
  · intro articles cache classifier articleId k src hfind hmiss
    unfold discover_relationships
    rw [hfind]
    dsimp only
    rw [hmiss]
    exact ⟨_, _, rfl⟩
  · intro srcId items d rest hall hfail
    rw [parse_relationships_append srcId items (d :: rest) hall,
      parse_relationships_fail_head srcId d rest hfail, List.append_nil]
  · intro classifier src m b bs acc hempty hlt
    simp only [process_batches, hempty, List.append_nil]
    rw [if_neg (Nat.not_le.mpr hlt)]

/-- Witness for the amended C3: each conjunct applied at a concrete input —
a missing id raises, a present id with an always-failing classifier returns a
list, the good-then-malformed response contributes exactly the prefix, and an
empty batch is skipped. -/
theorem discover_error_handling_amended_witness :
    (discover_relationships artsW [] clGoodW 99 none =
      (.error .valueErrorNotFound, [])) ∧
    (∃ rels cache',
      discover_relationships artsW [] clFailW 1 none = (.ok rels, cache')) ∧
    (parse_relationships 1 ([goodItemW] ++ badItemW :: []) =
      parse_relationships 1 [goodItemW]) ∧
    (process_batches clFailW artW1 20 [[]] [] =
      process_batches clFailW artW1 20 [] []) := by
  refine ⟨?_, ?_, ?_, ?_⟩
  · exact discover_error_handling_amended.1 artsW [] clGoodW 99 none (by decide)
  · exact discover_error_handling_amended.2.1 artsW [] clFailW 1 none artW1
      (by decide) (by decide)
  · exact discover_error_handling_amended.2.2.1 1 [goodItemW] badItemW []
      (by decide) (by decide)
  · exact discover_error_handling_amended.2.2.2 clFailW artW1 20 [] [] []
      (by decide) (by decide)

/-- Structure of a chain built by `_create_chain_from_path`: at least two
nodes, one link per consecutive node pair, aggregate impact equal to the sum
of node impact scores, and aggregate confidence equal to the mean link
confidence. -/
lemma create_chain_spec (nd : Int → GraphNodeData)
    (ed : Int → Int → GraphEdgeData) (path : List Int) (c : CausationChain)
    (h : create_chain_from_path nd ed path = some c) :
    2 ≤ c.nodes.length ∧ c.links.length = c.nodes.length - 1 ∧
    c.total_impact = (c.nodes.map (fun n => n.impact_score)).sum ∧
    c.confidence =
      (c.links.map (fun l => l.confidence)).sum / (c.links.length : ℚ) := by
  unfold create_chain_from_path at h
  by_cases hlen : path.length < 2
  · rw [if_pos hlen] at h
    exact Option.noConfusion h
  · rw [if_neg hlen] at h
    push_neg at hlen
    have hc := (Option.some.inj h).symm
    subst hc
    have hzip : ((path.zip path.tail).map (fun p =>
        let ed' := ed p.1 p.2
        CausationLink.mk p.1 p.2 ed'.relationship_type ed'.confidence
          ed'.explanation ed'.temporal_gap_days)).length = path.length - 1 := by
      rw [List.length_map, List.length_zip, List.length_tail]
      omega
    refine ⟨by simp [hlen], ?_, rfl, ?_⟩
    · simp only [hzip, List.length_map]
    · have hne : ((path.zip path.tail).map (fun p =>
          let ed' := ed p.1 p.2
          CausationLink.mk p.1 p.2 ed'.relationship_type ed'.confidence
            ed'.explanation ed'.temporal_gap_days)).length ≠ 0 := by
        rw [hzip]; omega
      simp only [if_pos hne]

/-- The score attached by `_rank_chains`, for a chain with one link per
consecutive node pair. -/
lemma score_chain_formula (c : CausationChain)
    (hlen : c.links.length = c.nodes.length - 1) :
    (score_chain c).score =
      (c.total_impact / (c.nodes.length : ℚ)) * (2/5) +
      c.confidence * (3/10) +
      min ((c.nodes.length : ℚ) / 3) 1 * (1/5) +
      (4/5 : ℚ) ^ (c.links.countP (fun l => l.temporal_gap_days < 0)) *
        (1/10) := by
  unfold score_chain
  rw [← hlen, List.take_length]

/-- C7 — every chain produced by `_create_chain_from_path` and ranked by
`_rank_chains` receives score `0.4·(mean node impact) + 0.3·(mean link
confidence) + 0.2·min(len(nodes)/3, 1) + 0.1·0.8^(number of negative-gap
links)`, and ranking permutes the chain list without excluding any chain —
negative-gap links are penalized, never filtered out. -/
theorem chain_ranking_score (nd : Int → GraphNodeData)
    (ed : Int → Int → GraphEdgeData) (paths : List (List Int)) :
    (rank_chains (paths.filterMap (create_chain_from_path nd ed))).Perm
      ((paths.filterMap (create_chain_from_path nd ed)).map score_chain) ∧
    ∀ c ∈ rank_chains (paths.filterMap (create_chain_from_path nd ed)),
      c.score =
        ((c.nodes.map (fun n => n.impact_score)).sum / (c.nodes.length : ℚ)) *
          (2/5) +
        ((c.links.map (fun l => l.confidence)).sum / (c.links.length : ℚ)) *
          (3/10) +
        min ((c.nodes.length : ℚ) / 3) 1 * (1/5) +
        (4/5 : ℚ) ^ (c.links.countP (fun l => l.temporal_gap_days < 0)) *
          (1/10) := by
  constructor
  · exact stable_sort_perm _ _
  · intro c hc
    unfold rank_chains at hc
    rw [mem_stable_sort] at hc
    obtain ⟨c₀, hc₀, rfl⟩ := List.mem_map.mp hc
    obtain ⟨path, _, hcreate⟩ := List.mem_filterMap.mp hc₀
    obtain ⟨_, hlen, himp, hconf⟩ := create_chain_spec nd ed path c₀ hcreate
    rw [score_chain_formula c₀ hlen, himp, hconf]
    rfl

/-- Witness for C7: the two-node path `[1, 2]` with node impacts 6, 7, link
confidence 0.9 and a negative temporal gap receives score
`0.4·6.5 + 0.3·0.9 + 0.2·(2/3) + 0.1·0.8 = 37/12`, and ranking keeps it. -/
theorem chain_ranking_score_witness :
    (rank_chains (([[1, 2]] : List (List Int)).filterMap
        (create_chain_from_path ndW edW))).map (fun c => c.score) =
      [37/12] ∧
    (rank_chains (([[1, 2]] : List (List Int)).filterMap
        (create_chain_from_path ndW edW))).Perm
      ((([[1, 2]] : List (List Int)).filterMap
        (create_chain_from_path ndW edW)).map score_chain) := by
  refine ⟨?_, (chain_ranking_score ndW edW [[1, 2]]).1⟩
  have h := (chain_ranking_score ndW edW [[1, 2]]).2 chainRankW (by decide)
  have hmap : (rank_chains (([[1, 2]] : List (List Int)).filterMap
      (create_chain_from_path ndW edW))).map (fun c => c.score) =
      [chainRankW.score] := by decide
  rw [hmap, h]
  decide

/-- Soundness of the best-match fold: when it returns a name not already held
by the incoming state, some listed pattern with that name scored strictly
above one half. -/
lemma match_fold_some (concepts : List String) :
    ∀ (ps : List CPattern) (st : Option String × ℚ) (name : String),
      (match_fold concepts ps st).1 = some name →
      st.1 = some name ∨
        ∃ p ∈ ps, p.name = name ∧ (1/2 : ℚ) < pattern_score p concepts := by
  intro ps
  induction ps with
  | nil => intro st name h; exact Or.inl h
  | cons p ps' ih =>
    intro st name h
    obtain ⟨bm, bs⟩ := st
    simp only [match_fold] at h
    split_ifs at h with hcond
    · rcases ih _ name h with h1 | ⟨q, hq, hrest⟩
      · exact Or.inr ⟨p, List.mem_cons_self p ps',
          Option.some.inj h1, hcond.2⟩
      · exact Or.inr ⟨q, List.mem_cons_of_mem p hq, hrest⟩
    · rcases ih _ name h with h1 | ⟨q, hq, hrest⟩
      · exact Or.inl h1
      · exact Or.inr ⟨q, List.mem_cons_of_mem p hq, hrest⟩

/-- C8 — a chain is assigned a pattern name only when that pattern's computed
match fraction strictly exceeds 0.5; concretely, a chain whose node titles
contain exactly 2 of the 4 Trade War Cascade keywords (fraction 0.5) gets no
label, while one containing 3 of the 4 (fraction 0.75) is assigned
"Trade War Cascade". -/
theorem pattern_match_boundary :
    (∀ (chain : CausationChain) (name : String),
      match_causation_pattern chain = some name →
      ∃ p ∈ CAUSATION_PATTERNS, p.name = name ∧
        (1/2 : ℚ) < pattern_score p (chain_concepts chain)) ∧
    (pattern_score patternTW (chain_concepts chainW2) = 1/2 ∧
      match_causation_pattern chainW2 = none) ∧
    (pattern_score patternTW (chain_concepts chainW3) = 3/4 ∧
      match_causation_pattern chainW3 = some "Trade War Cascade") := by
  refine ⟨?_, ⟨by decide, by decide⟩, ⟨by decide, by decide⟩⟩
  intro chain name h
  unfold match_causation_pattern at h
  rcases match_fold_some (chain_concepts chain) CAUSATION_PATTERNS
      (none, 0) name h with h1 | h2
  · exact Option.noConfusion h1
  · exact h2

/-- Witness for C8: the 3-of-4 chain is labeled, and the general bound
applied to it produces a pattern scoring above one half. -/
theorem pattern_match_boundary_witness :
    match_causation_pattern chainW3 = some "Trade War Cascade" ∧
    ∃ p ∈ CAUSATION_PATTERNS, p.name = "Trade War Cascade" ∧
      (1/2 : ℚ) < pattern_score p (chain_concepts chainW3) := by
  exact ⟨by decide,
    pattern_match_boundary.1 chainW3 "Trade War Cascade" (by decide)⟩

lemma add_effect_visited (acc : RippleAcc) (t : String) (e : RippleEffect) :
    (add_effect acc t e).visited = acc.visited := by
  unfold add_effect; split_ifs <;> rfl

lemma add_effect_next (acc : RippleAcc) (t : String) (e : RippleEffect) :
    (add_effect acc t e).next = acc.next := by
  unfold add_effect; split_ifs <;> rfl

lemma mem_tier_list_add_effect_self (acc : RippleAcc) (t : String)
    (e : RippleEffect) : e ∈ tier_list (add_effect acc t e) t := by
  unfold add_effect tier_list; split_ifs <;> simp_all

lemma tier_list_add_effect_mono (acc : RippleAcc) (t₀ : String)
    (e : RippleEffect) (t : String) (e' : RippleEffect)
    (h : e' ∈ tier_list acc t) : e' ∈ tier_list (add_effect acc t₀ e) t := by
  unfold add_effect
  unfold tier_list at h ⊢
  split_ifs at h ⊢ <;> simp_all

lemma effects_for_add_effect_ne (acc : RippleAcc) (t : String)
    (e : RippleEffect) (v : Int) (h : ¬e.node = v) :
    effects_for (add_effect acc t e) v = effects_for acc v := by
  unfold effects_for all_effects add_effect
  split_ifs <;> simp [List.filter_append, List.filter_cons, h]

lemma effects_for_add_effect_self (acc : RippleAcc) (t : String)
    (e : RippleEffect) (hemp : effects_for acc e.node = []) :
    effects_for (add_effect acc t e) e.node = [e] := by
  unfold effects_for all_effects at hemp ⊢
  simp only [List.filter_append, List.append_eq_nil] at hemp
  obtain ⟨⟨⟨h1, h2⟩, h3⟩, h4⟩ := hemp
  unfold add_effect
  split_ifs <;>
    simp [List.filter_append, List.filter_cons, h1, h2, h3, h4]

lemma ripple_extends_visit (hop : Nat) (s : Int) (acc : RippleAcc) :
    RippleExtends hop acc (visit_successor hop acc s)
      (if s ∈ acc.visited then [] else [s]) {s} := by
  by_cases hv : s ∈ acc.visited
  · rw [if_pos hv]
    unfold visit_successor
    rw [if_pos hv]
    refine ⟨?_, by simp, ?_, by simp, fun t e h => h, fun v _ => rfl, by simp⟩
    · exact (Finset.union_eq_left.mpr (by simpa using hv)).symm
    · simp only [List.toFinset_nil]
      symm
      rw [Finset.sdiff_eq_empty_iff_subset]
      simpa using hv
  · rw [if_neg hv]
    unfold visit_successor
    rw [if_neg hv]
    dsimp only
    refine ⟨?_, by simp, ?_, ?_, ?_, ?_, ?_⟩
    · rw [add_effect_visited]
      rw [Finset.insert_eq, Finset.union_comm]
    · ext x
      simp only [List.toFinset_cons, List.toFinset_nil, insert_emptyc_eq,
        Finset.mem_singleton, Finset.mem_sdiff]
      constructor
      · rintro rfl
        exact ⟨rfl, hv⟩
      · rintro ⟨rfl, _⟩
        rfl
    · rw [add_effect_next]
    · intro t e h
      exact tier_list_add_effect_mono _ _ _ t e h
    · intro v hv'
      have hne : ¬(mk_effect hop s).node = v := by
        simp only [List.mem_singleton] at hv'
        simp only [mk_effect]
        exact fun h => hv' h.symm
      exact effects_for_add_effect_ne _ _ _ v hne
    · intro v hvmem hemp
      have hvs : v = s := by simpa using hvmem
      subst hvs
      constructor
      · exact effects_for_add_effect_self _ _ (mk_effect hop v) hemp
      · exact mem_tier_list_add_effect_self _ _ (mk_effect hop v)

lemma ball_succ (succ : Int → List Int) (src : Int) (n : Nat) :
    ball succ src (n + 1) =
      ball succ src n ∪
        (ball succ src n).biUnion (fun v => (succ v).toFinset) := rfl

lemma ripple_extends_nil (hop : Nat) (acc : RippleAcc) :
    RippleExtends hop acc acc [] ∅ :=
  ⟨by simp, by simp, by simp, by simp, fun _ _ h => h, fun _ _ => rfl,
    by simp⟩

lemma ripple_extends_trans (hop : Nat) (a b c : RippleAcc)
    (Δ₁ Δ₂ : List Int) (S₁ S₂ : Finset Int)
    (h1 : RippleExtends hop a b Δ₁ S₁) (h2 : RippleExtends hop b c Δ₂ S₂) :
    RippleExtends hop a c (Δ₁ ++ Δ₂) (S₁ ∪ S₂) := by
  obtain ⟨v1, n1, f1, x1, m1, u1, r1⟩ := h1
  obtain ⟨v2, n2, f2, x2, m2, u2, r2⟩ := h2
  have hdisj : ∀ x, x ∈ Δ₁ → x ∈ Δ₂ → False := by
    intro x hx1 hx2
    have e1 : x ∈ S₁ \ a.visited := by
      rw [← f1]; exact List.mem_toFinset.mpr hx1
    have e2 : x ∈ S₂ \ b.visited := by
      rw [← f2]; exact List.mem_toFinset.mpr hx2
    rw [v1] at e2
    exact (Finset.mem_sdiff.mp e2).2
      (Finset.mem_union_right _ (Finset.mem_sdiff.mp e1).1)
  refine ⟨?_, ?_, ?_, ?_, ?_, ?_, ?_⟩
  · rw [v2, v1, Finset.union_assoc]
  · exact List.Nodup.append n1 n2 (fun x hx1 hx2 => hdisj x hx1 hx2)
  · rw [List.toFinset_append, f1, f2, v1]
    ext x
    simp only [Finset.mem_union, Finset.mem_sdiff, Finset.not_mem_union]
    tauto
  · rw [x2, x1, List.append_assoc]
  · exact fun t e h => m2 t e (m1 t e h)
  · intro v hv
    have hv1 : v ∉ Δ₁ := fun hx => hv (List.mem_append.mpr (Or.inl hx))
    have hv2 : v ∉ Δ₂ := fun hx => hv (List.mem_append.mpr (Or.inr hx))
    rw [u2 v hv2, u1 v hv1]
  · intro v hv hemp
    rcases List.mem_append.mp hv with hx1 | hx2
    · have hv2 : v ∉ Δ₂ := fun hx => hdisj v hx1 hx
      obtain ⟨he, hm⟩ := r1 v hx1 hemp
      exact ⟨by rw [u2 v hv2, he], m2 _ _ hm⟩
    · have hv1 : v ∉ Δ₁ := fun hx => hdisj v hx hx2
      have hemp' : effects_for b v = [] := by rw [u1 v hv1, hemp]
      exact r2 v hx2 hemp'

lemma ripple_extends_foldl (hop : Nat) :
    ∀ (l : List Int) (acc : RippleAcc), ∃ Δ,
      RippleExtends hop acc (l.foldl (visit_successor hop) acc) Δ
        l.toFinset := by
  intro l
  induction l with
  | nil =>
    intro acc
    exact ⟨[], by simpa using ripple_extends_nil hop acc⟩
  | cons s l ih =>
    intro acc
    obtain ⟨Δ₁, h₁⟩ := ih (visit_successor hop acc s)
    refine ⟨(if s ∈ acc.visited then [] else [s]) ++ Δ₁, ?_⟩
    have htr := ripple_extends_trans hop _ _ _ _ _ _ _
      (ripple_extends_visit hop s acc) h₁
    simpa [List.toFinset_cons, Finset.insert_eq] using htr

lemma ripple_extends_level (succ : Int → List Int) (hop : Nat) :
    ∀ (level : List Int) (acc : RippleAcc), ∃ Δ,
      RippleExtends hop acc (process_ripple_level succ hop level acc) Δ
        (level.toFinset.biUnion (fun v => (succ v).toFinset)) := by
  intro level
  induction level with
  | nil =>
    intro acc
    exact ⟨[], by simpa [process_ripple_level] using ripple_extends_nil hop acc⟩
  | cons v vs ih =>
    intro acc
    obtain ⟨Δ₀, h₀⟩ := ripple_extends_foldl hop (succ v) acc
    obtain ⟨Δ₁, h₁⟩ := ih (process_ripple_node succ hop acc v)
    refine ⟨Δ₀ ++ Δ₁, ?_⟩
    have htr := ripple_extends_trans hop _ _ _ _ _ _ _ h₀ h₁
    simpa [process_ripple_level, process_ripple_node, List.toFinset_cons,
      Finset.biUnion_insert] using htr

lemma ripple_loop_spec (succ : Int → List Int) (src : Int) :
    ∀ (fuel k : Nat) (level : List Int) (acc : RippleAcc),
      acc.visited = ball succ src k →
      level.Nodup →
      level.toFinset ⊆ ball succ src k →
      ball succ src (k + 1) =
        ball succ src k ∪
          level.toFinset.biUnion (fun v => (succ v).toFinset) →
      (∀ v, v ∉ acc.visited → effects_for acc v = []) →
      (∀ t e, e ∈ tier_list acc t →
        e ∈ tier_list (ripple_loop succ fuel (k + 1) level acc) t) ∧
      (ripple_loop succ fuel (k + 1) level acc).visited =
        ball succ src (k + fuel) ∧
      (∀ v, v ∈ acc.visited →
        effects_for (ripple_loop succ fuel (k + 1) level acc) v =
          effects_for acc v) ∧
      (∀ v, v ∉ acc.visited → v ∈ ball succ src (k + fuel) →
        ∃ h, k < h ∧ h ≤ k + fuel ∧ v ∈ ball succ src h ∧
          v ∉ ball succ src (h - 1) ∧
          effects_for (ripple_loop succ fuel (k + 1) level acc) v =
            [mk_effect h v] ∧
          mk_effect h v ∈
            tier_list (ripple_loop succ fuel (k + 1) level acc)
              (tier_of_hop h)) := by
  intro fuel
  induction fuel with
  | zero =>
    intro k level acc hvis _ _ _ _
    refine ⟨fun t e h => h, hvis, fun v _ => rfl, ?_⟩
    intro v hv hvin
    rw [hvis] at hv
    exact absurd hvin hv
  | succ fuel ih =>
    intro k level acc hvis hnodup hsub hcover hunrec
    simp only [ripple_loop]
    set acc₀ : RippleAcc := {acc with next := []} with hacc₀
    obtain ⟨Δ, hext⟩ := ripple_extends_level succ (k + 1) level acc₀
    set acc' := process_ripple_level succ (k + 1) level acc₀ with hacc'
    obtain ⟨v1, n1, f1, x1, m1, u1, r1⟩ := hext
    have hv0 : acc₀.visited = ball succ src k := hvis
    have hnext : acc'.next = Δ := by
      rw [x1]; exact List.nil_append Δ
    have hvis' : acc'.visited = ball succ src (k + 1) := by
      rw [v1, hv0, ← hcover]
    have hfront : Δ.toFinset = ball succ src (k + 1) \ ball succ src k := by
      rw [f1, hv0, hcover]
      ext x
      simp only [Finset.mem_sdiff, Finset.mem_union]
      tauto
    have hballsub : ball succ src k ⊆ ball succ src (k + 1) := by
      intro x hx
      rw [ball_succ]
      exact Finset.mem_union_left _ hx
    have hsplit : ball succ src (k + 1) = ball succ src k ∪ Δ.toFinset := by
      rw [hfront]
      exact (Finset.union_sdiff_of_subset hballsub).symm
    have hcover' : ball succ src (k + 1 + 1) =
        ball succ src (k + 1) ∪
          Δ.toFinset.biUnion (fun v => (succ v).toFinset) := by
      rw [ball_succ succ src (k + 1)]
      ext x
      simp only [Finset.mem_union, Finset.mem_biUnion]
      constructor
      · rintro (hx | ⟨y, hy, hxy⟩)
        · exact Or.inl hx
        · rw [hsplit] at hy
          rcases Finset.mem_union.mp hy with hy | hy
          · left
            rw [ball_succ]
            exact Finset.mem_union_right _
              (Finset.mem_biUnion.mpr ⟨y, hy, hxy⟩)
          · exact Or.inr ⟨y, hy, hxy⟩
      · rintro (hx | ⟨y, hy, hxy⟩)
        · exact Or.inl hx
        · right
          refine ⟨y, ?_, hxy⟩
          rw [hsplit]
          exact Finset.mem_union_right _ hy
    have hunrec' : ∀ v, v ∉ acc'.visited → effects_for acc' v = [] := by
      intro v hv
      have hv1 : v ∉ Δ := by
        intro hx
        apply hv
        rw [v1]
        have hxf : v ∈ Δ.toFinset := List.mem_toFinset.mpr hx
        rw [f1] at hxf
        exact Finset.mem_union_right _ (Finset.mem_sdiff.mp hxf).1
      have hv2 : v ∉ acc.visited := by
        intro hx
        apply hv
        rw [v1]
        exact Finset.mem_union_left _ hx
      rw [u1 v hv1]
      exact hunrec v hv2
    obtain ⟨ihm, ihvis, ihkeep, ihnew⟩ := ih (k + 1) Δ acc' hvis' n1
      (by rw [hfront]; intro x hx; exact (Finset.mem_sdiff.mp hx).1)
      hcover' hunrec'
    rw [hnext]
    refine ⟨?_, ?_, ?_, ?_⟩
    · intro t e h
      exact ihm t e (m1 t e h)
    · rw [ihvis]
      congr 1
      omega
    · intro v hv
      have hvv : v ∈ acc'.visited := by
        rw [v1]
        exact Finset.mem_union_left _ hv
      have hv1 : v ∉ Δ := by
        intro hx
        have hxf : v ∈ Δ.toFinset := List.mem_toFinset.mpr hx
        rw [f1] at hxf
        exact (Finset.mem_sdiff.mp hxf).2 hv
      rw [ihkeep v hvv, u1 v hv1]
      rfl
    · intro v hv hvin
      by_cases hvd : v ∈ Δ
      · have hemp : effects_for acc₀ v = [] := hunrec v hv
        obtain ⟨he, hm⟩ := r1 v hvd hemp
        have hvv : v ∈ acc'.visited := by
          rw [v1]
          have hxf : v ∈ Δ.toFinset := List.mem_toFinset.mpr hvd
          rw [f1] at hxf
          exact Finset.mem_union_right _ (Finset.mem_sdiff.mp hxf).1
        refine ⟨k + 1, by omega, by omega, ?_, ?_, ?_, ?_⟩
        · rw [← hvis']
          exact hvv
        · rw [hvis] at hv
          exact hv
        · rw [ihkeep v hvv, he]
        · exact ihm _ _ hm
      · have hvv : v ∉ acc'.visited := by
          rw [v1]
          intro hx
          rcases Finset.mem_union.mp hx with hx | hx
          · exact hv hx
          · apply hvd
            have hxf : v ∈ Δ.toFinset := by
              rw [f1]
              exact Finset.mem_sdiff.mpr ⟨hx, hv⟩
            exact List.mem_toFinset.mp hxf
        have hvin' : v ∈ ball succ src (k + 1 + fuel) := by
          have harith : k + 1 + fuel = k + (fuel + 1) := by omega
          rw [harith]
          exact hvin
        obtain ⟨h, hh1, hh2, hh3, hh4, hh5, hh6⟩ := ihnew v hvv hvin'
        exact ⟨h, by omega, by omega, hh3, hh4, hh5, hh6⟩

/-- C6 — in the result of `track_ripple_effects`, every node reachable
within `max_hops` hops (other than the source) is recorded exactly once,
tagged with the hop at which breadth-first traversal first discovers it (the
least `h` with the node inside the `h`-hop ball), in the tier list determined
by that hop (hop 1 PRIMARY, hop 2 SECONDARY, hop 3 TERTIARY, any further hop
QUATERNARY), with the propagation factor of that tier attached; the factors
1.0, 0.7, 0.4, 0.2 strictly decrease across tiers. -/
theorem ripple_tier_assignment (succ : Int → List Int) (src : Int)
    (maxHops : Nat) (v : Int) (hv : v ∈ ball succ src maxHops)
    (hne : v ≠ src) :
    ∃ h, 1 ≤ h ∧ h ≤ maxHops ∧ v ∈ ball succ src h ∧
      v ∉ ball succ src (h - 1) ∧
      effects_for (track_ripple_effects succ src maxHops) v =
        [mk_effect h v] ∧
      mk_effect h v ∈
        tier_list (track_ripple_effects succ src maxHops) (tier_of_hop h) ∧
      (mk_effect h v).factor = impact_propagation (tier_of_hop h) ∧
      impact_propagation "SECONDARY" < impact_propagation "PRIMARY" ∧
      impact_propagation "TERTIARY" < impact_propagation "SECONDARY" ∧
      impact_propagation "QUATERNARY" < impact_propagation "TERTIARY" := by
  have init1 : (⟨{src}, [], [], [], [], []⟩ : RippleAcc).visited =
      ball succ src 0 := rfl
  have hnodup : ([src] : List Int).Nodup := by simp
  have hsub : ([src] : List Int).toFinset ⊆ ball succ src 0 := by
    simp [ball]
  have hcover : ball succ src 1 =
      ball succ src 0 ∪
        ([src] : List Int).toFinset.biUnion (fun x => (succ x).toFinset) := by
    rw [ball_succ]
    congr 1
  have hunrec : ∀ x, x ∉ (⟨{src}, [], [], [], [], []⟩ : RippleAcc).visited →
      effects_for (⟨{src}, [], [], [], [], []⟩ : RippleAcc) x = [] :=
    fun _ _ => rfl
  obtain ⟨_, _, _, hnew⟩ := ripple_loop_spec succ src maxHops 0 [src]
    ⟨{src}, [], [], [], [], []⟩ init1 hnodup hsub hcover hunrec
  have hv' : v ∉ (⟨{src}, [], [], [], [], []⟩ : RippleAcc).visited := by
    intro hx
    exact hne (Finset.mem_singleton.mp hx)
  obtain ⟨h, hh1, hh2, hh3, hh4, hh5, hh6⟩ :=
    hnew v hv' (by rw [Nat.zero_add]; exact hv)
  refine ⟨h, by omega, by omega, hh3, hh4, hh5, hh6, rfl, ?_, ?_, ?_⟩
  · decide
  · decide
  · decide

/-- Witness for C6: in the concrete graph `succW`, node 4 is first reached
at hop 3 from node 0 and lands in TERTIARY with factor 0.4. -/
theorem ripple_tier_assignment_witness :
    ((4 : Int) ∈ ball succW 0 3 ∧ (4 : Int) ≠ 0) ∧
    ∃ h, 1 ≤ h ∧ h ≤ 3 ∧ (4 : Int) ∈ ball succW 0 h ∧
      (4 : Int) ∉ ball succW 0 (h - 1) ∧
      effects_for (track_ripple_effects succW 0 3) 4 = [mk_effect h 4] ∧
      mk_effect h 4 ∈
        tier_list (track_ripple_effects succW 0 3) (tier_of_hop h) ∧
      (mk_effect h 4).factor = impact_propagation (tier_of_hop h) ∧
      impact_propagation "SECONDARY" < impact_propagation "PRIMARY" ∧
      impact_propagation "TERTIARY" < impact_propagation "SECONDARY" ∧
      impact_propagation "QUATERNARY" < impact_propagation "TERTIARY" :=
  ⟨⟨by decide, by decide⟩,
    ripple_tier_assignment succW 0 3 4 (by decide) (by decide)⟩

end ArticleEngine
